import Mathlib

/-!
# Verification of the memory subsystem of a therapy chat bot

Shallow embedding of `src/ai_services/memory_manager.py` and the relevant
parts of `src/database/mongodb.py` / `src/database/models.py`.

Modelling conventions:
* Python floats are modelled as exact rationals `ℚ` (every constant in the
  scoring code is a short decimal literal).
* Python `datetime` values are modelled as integer epoch seconds `ℤ`;
  `timedelta.days` is floor division by 86400 and `timedelta.seconds` is the
  nonnegative remainder mod 86400, exactly as Python normalises timedeltas.
* Python strings are `String` / `List Char`.  `str.lower` is mapped
  `Char.toLower` (the identity on the Persian letters used by the program).
* The regex `[؀-ۿ܀-ݿ\w]+` of `_extract_keywords` is
  modelled by maximal runs of "word" characters, where the `\w` part is
  modelled for its ASCII portion (letters, digits, underscore); all concrete
  inputs below use only ASCII and Arabic-block characters, on which the model
  agrees with the regex.
* `list.sort(key=lambda x: x[1], reverse=True)` is a stable descending sort
  by the second component; it is modelled by `List.insertionSort` with the
  relation "left score ≥ right score", which is exactly the stable descending
  sort (ties keep their original order).
* MongoDB documents are modelled with a typed `_id` (`DbId`): `insert_one`
  lets the driver create an `ObjectId`, and a BSON filter `{"_id": x}` with a
  Python string `x` matches only string-typed ids, never `ObjectId`s.
-/

set_option maxRecDepth 40000

namespace TherapyBot

/-- Python `str.lower`, character by character (ASCII portion; Persian
letters have no case). -/
def pyLower (s : List Char) : List Char := s.map Char.toLower

/-- A character matched by the keyword regex `[؀-ۿ܀-ݿ\w]+`
(`\w` modelled on its ASCII portion). -/
def isWordChar (c : Char) : Bool :=
  c.isAlphanum || c == '_' ||
    (0x600 ≤ c.toNat && c.toNat ≤ 0x6FF) || (0x700 ≤ c.toNat && c.toNat ≤ 0x77F)

/-- Accumulator-based scanner producing the maximal runs of word characters,
i.e. `re.findall` of the keyword regex.  `acc` holds the current word,
reversed. -/
def tokenizeAux : List Char → List Char → List (List Char)
  | [], acc => if acc.isEmpty then [] else [acc.reverse]
  | c :: cs, acc =>
    if isWordChar c then tokenizeAux cs (c :: acc)
    else if acc.isEmpty then tokenizeAux cs acc
    else acc.reverse :: tokenizeAux cs []

/-- `re.findall(r'[؀-ۿ܀-ݿ\w]+', text)`. -/
def tokenize (text : List Char) : List (List Char) := tokenizeAux text []

/-- The Persian stop-word set of `_extract_keywords`. -/
def stopWords : List (List Char) :=
  (["و", "در", "به", "از", "که", "این", "با", "برای", "تا", "بر", "یا", "اما",
    "چون", "اگر", "وقتی", "البته", "بعد", "قبل", "حالا", "الان", "امروز", "دیروز",
    "است", "هست", "بود", "شد", "می", "نمی", "خیلی", "زیاد", "کم", "فقط"]).map
    String.toList

/-- `_extract_keywords` : tokenize, keep words of length > 2 that are not
stop words.  (Callers pass already-lowercased text, as in the source.) -/
def extract_keywords (text : List Char) : List (List Char) :=
  (tokenize text).filter (fun w => decide (2 < w.length) && !(stopWords.contains w))

/-- `needle` is a prefix of `haystack` (char lists). -/
def startsWithL : List Char → List Char → Bool
  | [], _ => true
  | _ :: _, [] => false
  | a :: as, b :: bs => a == b && startsWithL as bs

/-- Python's substring test `needle in haystack`. -/
def containsSub (needle : List Char) : List Char → Bool
  | [] => startsWithL needle []
  | c :: rest => startsWithL needle (c :: rest) || containsSub needle rest

/-- Number of keywords from `kws` occurring as substrings of `content`.
A loop `for k in kws: if k in content: score += w` adds `w` exactly
`countMatches content kws` times. -/
def countMatches (content : List Char) (kws : List (List Char)) : ℕ :=
  kws.countP (fun k => containsSub k content)

/-- `self.importance_keywords['high']`. -/
def highKeywords : List (List Char) :=
  (["خودکشی", "مرگ", "درد", "افسرده", "ناامید", "تنها", "ترس", "نگران", "اضطراب",
    "عاشق", "ازدواج", "طلاق", "خانواده", "پدر", "مادر", "فرزند", "کار", "شغل",
    "بیماری", "سلامت", "دردسر", "مشکل", "بحران", "تصمیم مهم"]).map String.toList

/-- `self.importance_keywords['medium']`. -/
def mediumKeywords : List (List Char) :=
  (["دوست", "رابطه", "احساس", "خوشحال", "ناراحت", "عصبانی", "آرام",
    "تغییر", "برنامه", "هدف", "آینده", "گذشته", "خاطره", "تجربه"]).map String.toList

/-- `personal_pronouns` in `_calculate_importance_score`. -/
def personalPronouns : List (List Char) :=
  (["من", "خودم", "خود", "مال من", "برای من"]).map String.toList

/-- `database.models.Message` (the fields the memory manager reads).
`emotion_detected : Optional[str]`; a non-empty detected emotion is `some e`,
`None`/empty is `none` (both are falsy in the `if message.emotion_detected:`
guard). -/
structure Message where
  role : String
  content : String
  timestamp : ℤ
  emotion_detected : Option String
deriving DecidableEq, Repr

/-- The `emotion_weights` dict lookup `emotion_weights.get(e, 0.05)`. -/
def emotionWeight (e : String) : ℚ :=
  if e = "sad" then 0.2 else if e = "angry" then 0.15
  else if e = "anxious" then 0.2 else if e = "worried" then 0.15
  else if e = "excited" then 0.1 else if e = "happy" then 0.05
  else if e = "frustrated" then 0.15 else 0.05

/-- The whole emotion block: the table lookup happens only under
`if message.emotion_detected:`. -/
def emotionBonus : Option String → ℚ
  | none => 0
  | some e => emotionWeight e

/-- The length-bonus block, translated branch for branch:
`if len > 100: +0.1  elif len > 200: +0.15  else +0`. -/
def lengthBonus (n : ℕ) : ℚ :=
  if 100 < n then 0.1 else if 200 < n then 0.15 else 0

/-- The question-detection block:
`'?' in content or 'چرا' in content or 'چگونه' in content or 'کی' in content`. -/
def questionBonus (content : List Char) : ℚ :=
  if (containsSub ['?'] content || containsSub "چرا".toList content ||
      containsSub "چگونه".toList content || containsSub "کی".toList content)
  then 0.1 else 0

/-- `_calculate_importance_score` before the final clamp: base 0.5, plus the
keyword loops (0.15 / 0.08 per match), the emotion bonus, the length bonus,
the question bonus and the pronoun loop (0.05 per match). -/
def rawImportance (m : Message) : ℚ :=
  let content := pyLower m.content.toList
  0.5 + 0.15 * countMatches content highKeywords
      + 0.08 * countMatches content mediumKeywords
      + emotionBonus m.emotion_detected
      + lengthBonus content.length
      + questionBonus content
      + 0.05 * countMatches content personalPronouns

/-- `_calculate_importance_score`, with the final clamp
`max(0.0, min(1.0, score))`. -/
def importanceScore (m : Message) : ℚ := max 0 (min 1 (rawImportance m))

/-- Tier decision of `store_conversation_memory`: short-term always, and
long-term iff `importance_score >= 0.7`. -/
def memoryTiers (m : Message) : Bool × Bool :=
  (true, decide ((0.7 : ℚ) ≤ importanceScore m))

/-- `database.models.MemoryType`. -/
inductive MemoryType where
  | short_term
  | long_term
deriving DecidableEq, Repr

/-- `database.models.Memory` as the pydantic model used by the manager
(after id conversion, `id` is a Python string). -/
structure Memory where
  id : String
  user_id : String
  memory_type : MemoryType
  content : String
  importance_score : ℚ
  created_at : ℤ
  last_accessed : ℤ
  access_count : ℕ
deriving DecidableEq, Repr

/-- `_calculate_time_relevance`: `days_ago = (now - created_at).days` (floor
division of the elapsed seconds by 86400), then the step function. -/
def timeRelevance (now created : ℤ) : ℚ :=
  let days := (now - created).fdiv 86400
  if days ≤ 1 then 1.0
  else if days ≤ 7 then 0.8
  else if days ≤ 30 then 0.6
  else if days ≤ 90 then 0.4
  else 0.2

/-- `set(self._extract_keywords(memory.content.lower()))`. -/
def memWords (m : Memory) : Finset (List Char) :=
  (extract_keywords (pyLower m.content.toList)).toFinset

/-- `current_words = set(self._extract_keywords(current_message.lower()))`. -/
def queryWords (q : String) : Finset (List Char) :=
  (extract_keywords (pyLower q.toList)).toFinset

/-- The per-candidate `final_score` of `_get_contextually_relevant_memories`:
`(similarity * 0.5) + (importance_score * 0.3) + (time_factor * 0.1) +
(access_factor * 0.1)` with `similarity = overlap / total_words` and
`access_factor = min(1.0, access_count / 10)`. -/
def relevanceScore (now : ℤ) (cw : Finset (List Char)) (m : Memory) : ℚ :=
  let overlap : ℕ := (cw ∩ memWords m).card
  let total : ℕ := (cw ∪ memWords m).card
  ((overlap : ℚ) / (total : ℚ)) * 0.5 + m.importance_score * 0.3 +
    timeRelevance now m.created_at * 0.1 +
    min 1.0 ((m.access_count : ℚ) / 10) * 0.1

/-- The scoring loop of `_get_contextually_relevant_memories`: a candidate is
appended to `scored_memories` only under `if total_words > 0:`. -/
def scoredMemories (now : ℤ) (query : String) (mems : List Memory) :
    List (Memory × ℚ) :=
  mems.filterMap (fun m =>
    if 0 < ((queryWords query) ∪ memWords m).card then
      some (m, relevanceScore now (queryWords query) m)
    else none)

/-- The ordering used by
`scored_memories.sort(key=lambda x: x[1], reverse=True)`: left element first
iff its score is ≥ the right one's.  A stable sort with this relation is
exactly Python's stable descending sort by score. -/
def sortDescRel (a b : Memory × ℚ) : Prop := b.2 ≤ a.2

instance : DecidableRel sortDescRel :=
  fun a b => inferInstanceAs (Decidable (b.2 ≤ a.2))

instance : IsTotal (Memory × ℚ) sortDescRel := ⟨fun a b => le_total b.2 a.2⟩

instance : IsTrans (Memory × ℚ) sortDescRel :=
  ⟨fun _ _ _ h1 h2 => le_trans h2 h1⟩

/-- `scored_memories` after the sort and the `[:limit]` slice. -/
def rankPool (now : ℤ) (query : String) (mems : List Memory) (limit : ℕ) :
    List (Memory × ℚ) :=
  (List.insertionSort sortDescRel (scoredMemories now query mems)).take limit

/-- The returned value of `_get_contextually_relevant_memories` given the
fetched candidate pool:
`[memory for memory, score in scored_memories[:limit] if score > 0.2]`. -/
def rankMemories (now : ℤ) (query : String) (mems : List Memory)
    (limit : ℕ) : List Memory :=
  (rankPool now query mems limit).filterMap
    (fun p => if (0.2 : ℚ) < p.2 then some p.1 else none)

/-! Spec-side definitions for the relevance formula (claim C1), written from
the spec's words, to be compared with the code-derived `scoredMemories`. -/

/-- Spec: `similarity` is the Jaccard ratio |A ∩ B| / |A ∪ B| of the keyword
sets. -/
def jaccard (A B : Finset (List Char)) : ℚ :=
  ((A ∩ B).card : ℚ) / ((A ∪ B).card : ℚ)

/-- Spec: `recency` is a step function of age-in-days since creation:
≤1 day → 1.0, ≤7 → 0.8, ≤30 → 0.6, ≤90 → 0.4, else → 0.2. -/
def specRecencyStep (days : ℤ) : ℚ :=
  if days ≤ 1 then 1.0
  else if days ≤ 7 then 0.8
  else if days ≤ 30 then 0.6
  else if days ≤ 90 then 0.4
  else 0.2

/-- Spec: `finalScore = 0.5·similarity + 0.3·importance + 0.1·recency +
0.1·accessFactor` with `accessFactor = min(1.0, access_count/10)`. -/
def specFinalScore (now : ℤ) (q : Finset (List Char)) (m : Memory) : ℚ :=
  0.5 * jaccard q (memWords m) + 0.3 * m.importance_score +
    0.1 * specRecencyStep ((now - m.created_at).fdiv 86400) +
    0.1 * min 1.0 ((m.access_count : ℚ) / 10)

/-- Spec: each candidate with non-empty keyword-token union is scored with
`specFinalScore`; candidates with an empty union are excluded entirely. -/
def specScoredPool (now : ℤ) (query : String) (mems : List Memory) :
    List (Memory × ℚ) :=
  mems.filterMap (fun m =>
    if ((queryWords query) ∪ memWords m).Nonempty then
      some (m, specFinalScore now (queryWords query) m)
    else none)

/-! The in-process short-term cache (`self.short_term_cache`). -/

/-- A cache entry as built by `_update_short_term_cache`. -/
structure CacheEntry where
  content : String
  role : String
  timestamp : ℤ
  importance : ℚ
  emotion : Option String
deriving DecidableEq, Repr

/-- `self.short_term_cache`: a dict from user id to a list of entries,
modelled as an association list. -/
abbrev Cache := List (String × List CacheEntry)

/-- `timedelta.seconds` of an elapsed time `delta` (in seconds): after
Python's normalisation the seconds component is the remainder mod 86400,
always in `[0, 86400)`. -/
def tdSeconds (delta : ℤ) : ℤ := delta.emod 86400

/-- `_cleanup_cache`: for each user keep the entries with
`(current_time - entry['timestamp']).seconds < 3600`, then delete users whose
list became empty. -/
def cleanupCache (cache : Cache) (now : ℤ) : Cache :=
  cache.filterMap (fun uc =>
    let kept := uc.2.filter (fun e => decide (tdSeconds (now - e.timestamp) < 3600))
    if kept.isEmpty then none else some (uc.1, kept))

/-- `_update_short_term_cache`: append the entry for the user (creating the
user's list if absent) and keep only the last 20 entries
(`cache[user] = cache[user][-20:]` once the length exceeds 20). -/
def cacheAppend (es : List CacheEntry) (e : CacheEntry) : List CacheEntry :=
  let es' := es ++ [e]
  if 20 < es'.length then es'.drop (es'.length - 20) else es'

/-- `_update_short_term_cache` on the whole cache dict. -/
def updateShortTermCache (cache : Cache) (user : String) (m : Message)
    (score : ℚ) : Cache :=
  let e : CacheEntry :=
    { content := m.content, role := m.role, timestamp := m.timestamp,
      importance := score, emotion := m.emotion_detected }
  if cache.any (fun uc => uc.1 == user) then
    cache.map (fun uc => if uc.1 == user then (uc.1, cacheAppend uc.2 e) else uc)
  else cache ++ [(user, [e])]

/-! The MongoDB layer (`src/database/mongodb.py`), at BSON-document level. -/

/-- A BSON `_id` value: either a driver-generated `ObjectId` or a string.
`insert_one` without an explicit `_id` always creates an `ObjectId`. -/
inductive DbId where
  | oid (n : ℕ)
  | strId (s : String)
deriving DecidableEq, Repr

/-- `convert_objectid_to_str` / `str(result.inserted_id)`: an `ObjectId` is
rendered as its (injective) string form, a string stays itself. -/
def idToStr : DbId → String
  | .oid n => "oid:" ++ toString n
  | .strId s => s

/-- A document of the memory collection. -/
structure MDoc where
  did : DbId
  user_id : String
  memory_type : MemoryType
  content : String
  importance_score : ℚ
  created_at : ℤ
  last_accessed : ℤ
  access_count : ℕ
deriving DecidableEq, Repr

/-- BSON equality used by the filter `{"_id": memory_id}` where `memory_id`
is a Python `str`: BSON compares values with their types, so a string filter
value matches only string-typed `_id`s, never an `ObjectId`. -/
def idMatchesStr (did : DbId) (mid : String) : Bool :=
  match did with
  | .oid _ => false
  | .strId s => s == mid

/-- `update_memory_access`: `update_one({"_id": memory_id},
{"$set": {"last_accessed": now}, "$inc": {"access_count": 1}})`. -/
def updateMemoryAccessDb (store : List MDoc) (mid : String) (now : ℤ) :
    List MDoc :=
  store.map (fun d =>
    if idMatchesStr d.did mid then
      { d with last_accessed := now, access_count := d.access_count + 1 }
    else d)

/-- `Memory(**mem)`: pydantic load of a document; the `_id` validator turns
an `ObjectId` into its string form. -/
def memFromDoc (d : MDoc) : Memory :=
  { id := idToStr d.did, user_id := d.user_id, memory_type := d.memory_type,
    content := d.content, importance_score := d.importance_score,
    created_at := d.created_at, last_accessed := d.last_accessed,
    access_count := d.access_count }

/-- The compound sort key of `get_relevant_memories`:
`[("importance_score", -1), ("last_accessed", -1)]` (descending lexicographic). -/
def mongoSortRel (a b : MDoc) : Prop :=
  b.importance_score < a.importance_score ∨
    (a.importance_score = b.importance_score ∧ b.last_accessed ≤ a.last_accessed)

instance : DecidableRel mongoSortRel := fun a b =>
  inferInstanceAs (Decidable (b.importance_score < a.importance_score ∨
    (a.importance_score = b.importance_score ∧ b.last_accessed ≤ a.last_accessed)))

/-- `get_relevant_memories(user_id, memory_type, limit)`: filter by user and
type, sort by the compound key, take `limit`, load as pydantic models. -/
def getRelevantMemoriesDb (store : List MDoc) (user : String)
    (mt : MemoryType) (limit : ℕ) : List Memory :=
  (((store.filter (fun d => d.user_id == user && d.memory_type == mt)).insertionSort
      mongoSortRel).take limit).map memFromDoc

/-- `for m in ms: await db_client.update_memory_access(m.id)`. -/
def updateAllDb (store : List MDoc) (ms : List Memory) (now : ℤ) : List MDoc :=
  ms.foldl (fun st m => updateMemoryAccessDb st m.id now) store

/-- `get_relevant_context` against the document store (the success path,
failures are modelled separately): fetch short-term records, mark each
accessed, fetch the long-term pool (50) and rank it, mark each returned
record accessed, and return the `Recent:`/`Background:` items together with
the final store. -/
def getRelevantContextDb (store : List MDoc) (user msg : String)
    (limit : ℕ) (now : ℤ) : List String × List MDoc :=
  let shorts := getRelevantMemoriesDb store user .short_term (limit / 2)
  let st1 := updateAllDb store shorts now
  let alls := getRelevantMemoriesDb st1 user .long_term 50
  let longs := if alls.isEmpty then [] else rankMemories now msg alls (limit / 2)
  let st2 := updateAllDb st1 longs now
  (shorts.map (fun m => "Recent: " ++ m.content) ++
     longs.map (fun m => "Background: " ++ m.content), st2)

/-! Failure model (claim C10): every persistence call either completes
atomically or raises; `DbOps` is the collaborator interface with arbitrary
behaviour, the manager's `try/except` blocks are the `match`es below. -/

/-- The persistence operations `store_conversation_memory` and
`get_relevant_context` await, each allowed to fail. -/
structure DbOps (σ : Type) where
  storeMemory : σ → String → String → MemoryType → ℚ → Except Unit σ
  queryMemories : σ → String → MemoryType → ℕ → Except Unit (List Memory)
  updateAccess : σ → String → Except Unit σ

/-- `_store_short_term_memory`'s content:
`f"{role}: {content}"` plus the emotion suffix. -/
def shortContent (m : Message) : String :=
  m.role ++ ": " ++ m.content ++
    (match m.emotion_detected with
     | some e => " [emotion: " ++ e ++ "]"
     | none => "")

/-- The length-truncation of `_create_long_term_summary` (cap 200 chars plus
marker). -/
def truncate200 (s : String) : String :=
  if 200 < s.toList.length then (s.toList.take 200).asString ++ "..." else s

/-- `message.timestamp.strftime("%Y-%m-%d")`, abstracted to an injective
rendering of the day index (the exact date text is irrelevant here). -/
def dayStamp (t : ℤ) : String := toString (t.fdiv 86400)

/-- `_create_long_term_summary`. -/
def longSummary (m : Message) : String :=
  String.intercalate " - "
    (["[" ++ dayStamp m.timestamp ++ "]"] ++
      (match m.emotion_detected with
       | some e => ["User felt " ++ e]
       | none => []) ++
      ["Said: " ++ truncate200 m.content])

/-- `store_conversation_memory` with its `try/except`: score, store
short-term, store long-term iff score ≥ 0.7, update the cache, return `True`;
a failing await leaves the state as completed so far and returns `False`. -/
def storeConversationMemoryOps {σ : Type} (ops : DbOps σ) (st : σ)
    (cache : Cache) (user : String) (m : Message) : Bool × σ × Cache :=
  let score := importanceScore m
  match ops.storeMemory st user (shortContent m) .short_term score with
  | .error _ => (false, st, cache)
  | .ok st1 =>
    if (0.7 : ℚ) ≤ score then
      match ops.storeMemory st1 user (longSummary m) .long_term score with
      | .error _ => (false, st1, cache)
      | .ok st2 => (true, st2, updateShortTermCache cache user m score)
    else (true, st1, updateShortTermCache cache user m score)

/-- `_get_contextually_relevant_memories` with its own `try/except`: a
failing long-term query is caught *here* and yields `[]`. -/
def getCtxRelevantOps {σ : Type} (ops : DbOps σ) (st : σ) (user msg : String)
    (limit : ℕ) (now : ℤ) : List Memory :=
  match ops.queryMemories st user .long_term 50 with
  | .error _ => []
  | .ok alls => if alls.isEmpty then [] else rankMemories now msg alls limit

/-- The access-update loop of `get_relevant_context`: returns the state after
the updates together with `false` if one of them raised. -/
def updateAllOps {σ : Type} (ops : DbOps σ) : List Memory → σ → σ × Bool
  | [], st => (st, true)
  | m :: rest, st =>
    match ops.updateAccess st m.id with
    | .error _ => (st, false)
    | .ok st' => updateAllOps ops rest st'

/-- `get_relevant_context` with its `try/except`: any raise inside the outer
body (short-term query or an access update) degrades the result to `[]`;
a failing long-term query was already caught inside `getCtxRelevantOps`. -/
def getRelevantContextOps {σ : Type} (ops : DbOps σ) (st : σ)
    (user msg : String) (limit : ℕ) (now : ℤ) : List String × σ :=
  match ops.queryMemories st user .short_term (limit / 2) with
  | .error _ => ([], st)
  | .ok shorts =>
    let p1 := updateAllOps ops shorts st
    if p1.2 then
      let longs := getCtxRelevantOps ops p1.1 user msg (limit / 2) now
      let p2 := updateAllOps ops longs p1.1
      if p2.2 then
        (shorts.map (fun m => "Recent: " ++ m.content) ++
           longs.map (fun m => "Background: " ++ m.content), p2.1)
      else ([], p2.1)
    else ([], p1.1)

/-! Concrete inputs used by counterexamples and witnesses. -/

/-- "خیلی ناراحتم": 'ناراحت' is a *medium*-importance keyword (+0.08); no
high keyword, question marker or pronoun occurs. -/
def sadMsg : Message :=
  { role := "user", content := "خیلی ناراحتم", timestamp := 0,
    emotion_detected := none }

/-- A message of 201 characters (strictly longer than the 200 threshold). -/
def longMsg : Message :=
  { role := "user", content := ⟨List.replicate 201 'a'⟩, timestamp := 0,
    emotion_detected := none }

/-- A signal-free three-letter message without any detected emotion. -/
def xyzMsg : Message :=
  { role := "user", content := "xyz", timestamp := 0, emotion_detected := none }

/-- The same message with a detected emotion that is not in the weight
table. -/
def confusedMsg : Message :=
  { role := "user", content := "xyz", timestamp := 0,
    emotion_detected := some "confused" }

/-- "خودکشی مرگ" holds two high-importance keywords and the pronoun 'خود';
its importance score is 0.85 ≥ 0.7. -/
def highMsg : Message :=
  { role := "user", content := "خودکشی مرگ", timestamp := 0,
    emotion_detected := none }

/-- A fresh, maximally important, frequently accessed long-term candidate
sharing no keyword with the query "apple". -/
def bananaMem : Memory :=
  { id := "oid:1", user_id := "u", memory_type := .long_term,
    content := "banana", importance_score := 1, created_at := 0,
    last_accessed := 0, access_count := 10 }

/-- A cache entry created at epoch 0. -/
def staleEntry : CacheEntry :=
  { content := "hi", role := "user", timestamp := 0, importance := 0.5,
    emotion := none }

/-- A long-term document inserted by the driver (hence an `ObjectId` id). -/
def exDoc : MDoc :=
  { did := .oid 1, user_id := "u", memory_type := .long_term,
    content := "apple pie", importance_score := 0.9, created_at := 0,
    last_accessed := 0, access_count := 0 }

/-- A stored short-term memory, as loaded by pydantic. -/
def exShortMemory : Memory :=
  { id := "oid:2", user_id := "u", memory_type := .short_term,
    content := "hello", importance_score := 0.5, created_at := 0,
    last_accessed := 0, access_count := 0 }

/-- Collaborator behaviour: every store primitive raises. -/
def opsAllFail : DbOps ℕ :=
  { storeMemory := fun _ _ _ _ _ => .error (),
    queryMemories := fun _ _ _ _ => .error (),
    updateAccess := fun _ _ => .error () }

/-- Collaborator behaviour: short-term insert succeeds (bumping the state),
long-term insert raises. -/
def opsLongStoreFail : DbOps ℕ :=
  { storeMemory := fun st _ _ mt _ =>
      match mt with
      | .short_term => .ok (st + 1)
      | .long_term => .error (),
    queryMemories := fun _ _ _ _ => .ok [],
    updateAccess := fun st _ => .ok st }

/-- Collaborator behaviour: queries succeed (one short-term record, and a
failing long-term query), access updates succeed. -/
def opsLongQueryFail : DbOps ℕ :=
  { storeMemory := fun st _ _ _ _ => .ok st,
    queryMemories := fun _ _ mt _ =>
      match mt with
      | .short_term => .ok [exShortMemory]
      | .long_term => .error (),
    updateAccess := fun st _ => .ok st }

/-- Collaborator behaviour: queries succeed but every access update raises. -/
def opsUpdateFail : DbOps ℕ :=
  { storeMemory := fun st _ _ _ _ => .ok st,
    queryMemories := fun _ _ _ _ => .ok [exShortMemory],
    updateAccess := fun _ _ => .error () }

/-! # Helper lemmas -/

/-- Transfer a `Pairwise` relation along a pointwise implication that may use
membership. -/
theorem pairwiseTransfer {α : Type} {R S : α → α → Prop} :
    ∀ {l : List α}, (∀ a ∈ l, ∀ b ∈ l, R a b → S a b) →
      l.Pairwise R → l.Pairwise S := by
  intro l
  induction l with
  | nil => intro _ _; exact List.Pairwise.nil
  | cons x xs ih =>
    intro h hp
    rw [List.pairwise_cons] at hp ⊢
    refine ⟨fun b hb => h x (by simp) b (by simp [hb]) (hp.1 b hb), ?_⟩
    exact ih (fun a ha b hb hr => h a (by simp [ha]) b (by simp [hb]) hr) hp.2

/-- Every element of `scoredMemories` is a candidate from the pool paired
with its `relevanceScore`. -/
theorem mem_scoredMemories {now : ℤ} {query : String} {mems : List Memory}
    {p : Memory × ℚ} (hp : p ∈ scoredMemories now query mems) :
    p.1 ∈ mems ∧ p.2 = relevanceScore now (queryWords query) p.1 := by
  unfold scoredMemories at hp
  rw [List.mem_filterMap] at hp
  obtain ⟨m, hm, hfm⟩ := hp
  by_cases h : 0 < ((queryWords query) ∪ memWords m).card
  · rw [if_pos h, Option.some.injEq] at hfm
    subst hfm
    exact ⟨hm, rfl⟩
  · rw [if_neg h] at hfm
    exact absurd hfm (by simp)

/-- The projection of `scoredMemories` keeps the retrieval order: its list of
first components is a sublist of the candidate pool. -/
theorem scored_fst_sublist (now : ℤ) (query : String) :
    ∀ mems : List Memory,
      List.Sublist ((scoredMemories now query mems).map Prod.fst) mems := by
  intro mems
  induction mems with
  | nil => simp [scoredMemories]
  | cons m ms ih =>
    unfold scoredMemories at ih ⊢
    rw [List.filterMap_cons]
    by_cases h : 0 < ((queryWords query) ∪ memWords m).card
    · rw [if_pos h]
      exact List.Sublist.cons₂ m ih
    · rw [if_neg h]
      exact List.Sublist.cons m ih

/-- The final list comprehension is a filter + projection. -/
theorem filterMap_cutoff_eq (L : List (Memory × ℚ)) :
    L.filterMap (fun p => if (0.2 : ℚ) < p.2 then some p.1 else none) =
      (L.filter (fun p => decide ((0.2 : ℚ) < p.2))).map Prod.fst := by
  induction L with
  | nil => rfl
  | cons x xs ih =>
    rw [List.filterMap_cons, List.filter_cons]
    simp only [decide_eq_true_eq]
    by_cases h : (0.2 : ℚ) < x.2
    · rw [if_pos h, if_pos h, List.map_cons, ih]
    · rw [if_neg h, if_neg h, ih]

theorem rankMemories_eq (now : ℤ) (query : String) (mems : List Memory)
    (limit : ℕ) :
    rankMemories now query mems limit =
      ((rankPool now query mems limit).filter
        (fun p => decide ((0.2 : ℚ) < p.2))).map Prod.fst := by
  unfold rankMemories
  exact filterMap_cutoff_eq _

/-- Elements of the sorted, truncated pool come from `scoredMemories`. -/
theorem mem_rankPool {now : ℤ} {query : String} {mems : List Memory}
    {limit : ℕ} {p : Memory × ℚ} (hp : p ∈ rankPool now query mems limit) :
    p ∈ scoredMemories now query mems := by
  unfold rankPool at hp
  have h1 : p ∈ List.insertionSort sortDescRel (scoredMemories now query mems) :=
    (List.take_sublist _ _).subset hp
  exact (List.perm_insertionSort sortDescRel _).subset h1

/-- Inserting an element into a list with `orderedInsert` under the strict
descending walk: the elements it walks past all have strictly larger score,
so the equal-score fibre gains the new element at its front (when it belongs
to the fibre) and is untouched otherwise. -/
theorem filterEq_orderedInsert (q : ℚ) (x : Memory × ℚ) :
    ∀ l : List (Memory × ℚ),
      (List.orderedInsert sortDescRel x l).filter (fun p => decide (p.2 = q)) =
        if x.2 = q then x :: l.filter (fun p => decide (p.2 = q))
        else l.filter (fun p => decide (p.2 = q)) := by
  intro l
  induction l with
  | nil =>
    by_cases hx : x.2 = q <;>
      simp [List.orderedInsert, List.filter_cons, hx]
  | cons y ys ih =>
    simp only [List.orderedInsert]
    by_cases hxy : sortDescRel x y
    · rw [if_pos hxy]
      by_cases hx : x.2 = q <;> by_cases hy : y.2 = q <;>
        simp [List.filter_cons, hx, hy]
    · rw [if_neg hxy]
      by_cases hy : y.2 = q
      · have hxq : ¬ x.2 = q := fun hx => hxy (le_of_eq (hy.trans hx.symm))
        simp [List.filter_cons, ih, hy, hxq]
      · by_cases hx : x.2 = q <;> simp [List.filter_cons, ih, hy, hx]

/-- Stability of the sort: the fibre of any fixed score is the same, in the
same order, before and after sorting. -/
theorem filterEq_insertionSort (q : ℚ) :
    ∀ l : List (Memory × ℚ),
      (List.insertionSort sortDescRel l).filter (fun p => decide (p.2 = q)) =
        l.filter (fun p => decide (p.2 = q)) := by
  intro l
  induction l with
  | nil => rfl
  | cons x xs ih =>
    simp only [List.insertionSort]
    rw [filterEq_orderedInsert, ih, List.filter_cons]
    simp only [decide_eq_true_eq]

/-! # The claims -/

/-- C1.  For every long-term candidate whose keyword-token union with the
query is non-empty, the ranker's relevance is
`0.5·similarity + 0.3·importance + 0.1·recency + 0.1·accessFactor`, with
`similarity` the Jaccard ratio of the keyword sets, `recency` the step
function of age-in-days (≤1 → 1.0, ≤7 → 0.8, ≤30 → 0.6, ≤90 → 0.4, else 0.2)
and `accessFactor = min(1.0, access_count/10)`; candidates with an empty
union are excluded from scoring entirely: the code-derived scored pool equals
the pool described by the spec. -/
theorem claim_C1 :
    ∀ (now : ℤ) (query : String) (mems : List Memory),
      scoredMemories now query mems = specScoredPool now query mems := by
  intro now query mems
  unfold scoredMemories specScoredPool
  refine congrArg (fun f => List.filterMap f mems) (funext fun m => ?_)
  have hscore : relevanceScore now (queryWords query) m =
      specFinalScore now (queryWords query) m := by
    unfold relevanceScore specFinalScore jaccard
    have ht : timeRelevance now m.created_at =
        specRecencyStep ((now - m.created_at).fdiv 86400) := rfl
    rw [ht]
    ring
  rw [hscore]
  exact if_congr Finset.card_pos rfl rfl

/-- C2.  The ranking operation returns at most `limit` records, and every
returned record has relevance score strictly greater than 0.2. -/
theorem claim_C2 :
    ∀ (now : ℤ) (query : String) (mems : List Memory) (limit : ℕ),
      (rankMemories now query mems limit).length ≤ limit ∧
      (rankMemories now query mems limit).all
        (fun m => decide ((0.2 : ℚ) < relevanceScore now (queryWords query) m))
        = true := by
  intro now query mems limit
  constructor
  · rw [rankMemories_eq, List.length_map]
    exact le_trans (List.length_filter_le _ _)
      (by rw [rankPool]; exact List.length_take_le _ _)
  · rw [List.all_eq_true]
    intro m hm
    rw [rankMemories_eq, List.mem_map] at hm
    obtain ⟨p, hp, hpm⟩ := hm
    rw [List.mem_filter, decide_eq_true_eq] at hp
    have hsc := mem_scoredMemories (mem_rankPool hp.1)
    rw [decide_eq_true_eq, ← hpm, ← hsc.2]
    exact hp.2

/-- C3.  The ranking output is sorted non-increasing by relevance score, and
for every score value `q` the equal-score records appear in the output as a
sublist of the candidate pool, i.e. in exactly the relative order in which
they were retrieved from the store (stable tie-break). -/
theorem claim_C3 :
    ∀ (now : ℤ) (query : String) (mems : List Memory) (limit : ℕ) (q : ℚ),
      (rankMemories now query mems limit).Pairwise
        (fun a b => relevanceScore now (queryWords query) b ≤
          relevanceScore now (queryWords query) a) ∧
      List.Sublist
        ((rankMemories now query mems limit).filter
          (fun m => decide (relevanceScore now (queryWords query) m = q)))
        mems := by
  intro now query mems limit q
  have hpool : ∀ p ∈ (rankPool now query mems limit).filter
      (fun p => decide ((0.2 : ℚ) < p.2)),
      p.1 ∈ mems ∧ p.2 = relevanceScore now (queryWords query) p.1 :=
    fun p hp => mem_scoredMemories (mem_rankPool (List.mem_of_mem_filter hp))
  constructor
  · rw [rankMemories_eq]
    rw [List.pairwise_map]
    have hsorted : (List.insertionSort sortDescRel
        (scoredMemories now query mems)).Pairwise sortDescRel :=
      List.sorted_insertionSort sortDescRel _
    have hposort : ((rankPool now query mems limit).filter
        (fun p => decide ((0.2 : ℚ) < p.2))).Pairwise sortDescRel := by
      refine List.Pairwise.sublist ?_ hsorted
      exact List.Sublist.trans (List.filter_sublist _) (List.take_sublist _ _)
    refine pairwiseTransfer (fun a ha b hb hr => ?_) hposort
    rw [← (hpool a ha).2, ← (hpool b hb).2]
    exact hr
  · rw [rankMemories_eq, List.filter_map]
    have hcongr : ((rankPool now query mems limit).filter
          (fun p => decide ((0.2 : ℚ) < p.2))).filter
          ((fun m => decide (relevanceScore now (queryWords query) m = q)) ∘
            Prod.fst) =
        ((rankPool now query mems limit).filter
          (fun p => decide ((0.2 : ℚ) < p.2))).filter
          (fun p => decide (p.2 = q)) := by
      refine List.filter_congr (fun p hp => ?_)
      simp only [Function.comp_apply]
      rw [← (hpool p hp).2]
    rw [hcongr]
    have hchain : List.Sublist (((rankPool now query mems limit).filter
          (fun p => decide ((0.2 : ℚ) < p.2))).filter (fun p => decide (p.2 = q)))
        ((scoredMemories now query mems).filter (fun p => decide (p.2 = q))) := by
      rw [← filterEq_insertionSort q (scoredMemories now query mems)]
      refine List.Sublist.filter _ ?_
      exact List.Sublist.trans (List.filter_sublist _) (List.take_sublist _ _)
    refine List.Sublist.trans (List.Sublist.map Prod.fst hchain) ?_
    refine List.Sublist.trans (List.Sublist.map Prod.fst (List.filter_sublist _)) ?_
    exact scored_fst_sublist now query mems

/-- Evaluation: the zero-overlap candidate `bananaMem` against the query
"apple" still scores `0.3·1 + 0.1·1 + 0.1·1 = 0.5`. -/
theorem relevance_apple_banana :
    relevanceScore 0 (queryWords "apple") bananaMem = 0.5 := by
  unfold relevanceScore
  rw [show ((queryWords "apple") ∩ memWords bananaMem).card = 0 from by decide,
      show ((queryWords "apple") ∪ memWords bananaMem).card = 2 from by decide]
  norm_num [bananaMem, timeRelevance, Int.zero_fdiv, min_def]

theorem rank_apple_banana : rankMemories 0 "apple" [bananaMem] 5 = [bananaMem] := by
  have hscored : scoredMemories 0 "apple" [bananaMem] = [(bananaMem, 0.5)] := by
    unfold scoredMemories
    rw [List.filterMap_cons,
      if_pos (by decide : 0 < ((queryWords "apple") ∪ memWords bananaMem).card),
      relevance_apple_banana, List.filterMap_nil]
  unfold rankMemories rankPool
  rw [hscored]
  simp only [List.insertionSort, List.orderedInsert, List.take]
  rw [List.filterMap_cons, if_pos (by norm_num : (0.2 : ℚ) < 0.5),
    List.filterMap_nil]

/-- C4, counterexample.  A non-empty pool whose single candidate shares no
keyword token with the query: the ranking operation still returns the
candidate (its importance/recency/access components alone exceed the 0.2
cutoff), not the empty sequence. -/
theorem counterexample_C4 :
    (((queryWords "apple") ∩ memWords bananaMem).card = 0) ∧
    rankMemories 0 "apple" [bananaMem] 5 = [bananaMem] ∧
    rankMemories 0 "apple" [bananaMem] 5 ≠ [] := by
  refine ⟨by decide, rank_apple_banana, ?_⟩
  rw [rank_apple_banana]
  simp

/-- C4, amended.  When the query shares zero keyword tokens with every
candidate, similarity contributes 0 and each returned record's score is
`0.3·importance + 0.1·recency + 0.1·accessFactor`, still subject to the
`> 0.2` cutoff — the result is not necessarily empty. -/
theorem claim_C4 :
    ∀ (now : ℤ) (query : String) (mems : List Memory) (limit : ℕ),
      (∀ m ∈ mems, ((queryWords query) ∩ memWords m).card = 0) →
      (rankMemories now query mems limit).all (fun m =>
        decide (relevanceScore now (queryWords query) m =
          m.importance_score * 0.3 + timeRelevance now m.created_at * 0.1 +
            min 1.0 ((m.access_count : ℚ) / 10) * 0.1) &&
        decide ((0.2 : ℚ) < relevanceScore now (queryWords query) m)) = true := by
  intro now query mems limit hzero
  rw [List.all_eq_true]
  intro m hm
  rw [rankMemories_eq, List.mem_map] at hm
  obtain ⟨p, hp, hpm⟩ := hm
  rw [List.mem_filter, decide_eq_true_eq] at hp
  have hsc := mem_scoredMemories (mem_rankPool hp.1)
  rw [Bool.and_eq_true, decide_eq_true_eq, decide_eq_true_eq, ← hpm, ← hsc.2]
  refine ⟨?_, hp.2⟩
  rw [hsc.2]
  unfold relevanceScore
  rw [hzero p.1 hsc.1]
  push_cast
  rw [zero_div, zero_mul, zero_add]

/-- Witness for the amended C4 at the concrete zero-overlap pool. -/
theorem claim_C4_witness :
    (rankMemories 0 "apple" [bananaMem] 5).all (fun m =>
      decide (relevanceScore 0 (queryWords "apple") m =
        m.importance_score * 0.3 + timeRelevance 0 m.created_at * 0.1 +
          min 1.0 ((m.access_count : ℚ) / 10) * 0.1) &&
      decide ((0.2 : ℚ) < relevanceScore 0 (queryWords "apple") m)) = true :=
  claim_C4 0 "apple" [bananaMem] 5 (by decide)

/-- Evaluation of the importance score of the 201-character message: only
the `len > 100` branch fires, adding 0.1. -/
theorem importance_longMsg : importanceScore longMsg = 0.6 := by
  have h1 : countMatches (pyLower longMsg.content.toList) highKeywords = 0 := by
    decide
  have h2 : countMatches (pyLower longMsg.content.toList) mediumKeywords = 0 := by
    decide
  have h3 : countMatches (pyLower longMsg.content.toList) personalPronouns = 0 := by
    decide
  have h4 : (pyLower longMsg.content.toList).length = 201 := by decide
  have h5 : questionBonus (pyLower longMsg.content.toList) = 0 := by
    unfold questionBonus
    rw [if_neg]
    rw [Bool.not_eq_true]
    decide
  have h6 : longMsg.emotion_detected = none := rfl
  simp only [importanceScore, rawImportance]
  rw [h1, h2, h3, h4, h5, h6]
  norm_num [emotionBonus, lengthBonus, min_def, max_def]

/-- C5.  Code bug: the two length thresholds live in an `if/elif` chain
ordered short-first, so the `len > 200` branch is unreachable — the length
bonus is `0.1` for every text longer than 100 characters and the flat `0.15`
bonus is never applied, contrary to the claim that a text longer than 200
characters receives it.  Evaluated at the 201-character failing input the
whole score is `0.5 + 0.1 = 0.6`. -/
theorem claim_C5 :
    (∀ n : ℕ, lengthBonus n = if 100 < n then (0.1 : ℚ) else 0) ∧
    importanceScore longMsg = 0.6 ∧ (200 : ℕ) < longMsg.content.toList.length := by
  refine ⟨?_, importance_longMsg, by decide⟩
  intro n
  unfold lengthBonus
  split_ifs with h1 h2
  · rfl
  · exact absurd (lt_trans (by norm_num) h2) h1
  · rfl

/-- Evaluation of the signal-free message without emotion: exactly the base
score. -/
theorem importance_xyzMsg : importanceScore xyzMsg = 0.5 := by
  have h1 : countMatches (pyLower xyzMsg.content.toList) highKeywords = 0 := by
    decide
  have h2 : countMatches (pyLower xyzMsg.content.toList) mediumKeywords = 0 := by
    decide
  have h3 : countMatches (pyLower xyzMsg.content.toList) personalPronouns = 0 := by
    decide
  have h4 : (pyLower xyzMsg.content.toList).length = 3 := by decide
  have h5 : questionBonus (pyLower xyzMsg.content.toList) = 0 := by
    unfold questionBonus
    rw [if_neg]
    rw [Bool.not_eq_true]
    decide
  have h6 : xyzMsg.emotion_detected = none := rfl
  simp only [importanceScore, rawImportance]
  rw [h1, h2, h3, h4, h5, h6]
  norm_num [emotionBonus, lengthBonus, min_def, max_def]

/-- Evaluation of the same message with the unknown emotion label
"confused": the dict-lookup default 0.05 is added. -/
theorem importance_confusedMsg : importanceScore confusedMsg = 0.55 := by
  have h1 : countMatches (pyLower confusedMsg.content.toList) highKeywords = 0 := by
    decide
  have h2 : countMatches (pyLower confusedMsg.content.toList) mediumKeywords = 0 := by
    decide
  have h3 : countMatches (pyLower confusedMsg.content.toList) personalPronouns = 0 := by
    decide
  have h4 : (pyLower confusedMsg.content.toList).length = 3 := by decide
  have h5 : questionBonus (pyLower confusedMsg.content.toList) = 0 := by
    unfold questionBonus
    rw [if_neg]
    rw [Bool.not_eq_true]
    decide
  have h6 : confusedMsg.emotion_detected = some "confused" := rfl
  have he : emotionWeight "confused" = 0.05 := rfl
  simp only [importanceScore, rawImportance]
  rw [h1, h2, h3, h4, h5, h6]
  simp only [emotionBonus, he]
  norm_num [lengthBonus, min_def, max_def]

/-- C6, counterexample.  With no detected emotion the score of a signal-free
message is exactly the base 0.5 — no default 0.05 is added — while the same
message with an unknown emotion label scores 0.55.  The claim's value for
the absent-emotion case (base + 0.05 = 0.55) is wrong. -/
theorem counterexample_C6 :
    importanceScore xyzMsg = 0.5 ∧ importanceScore confusedMsg = 0.55 ∧
    importanceScore xyzMsg ≠ 0.55 := by
  refine ⟨importance_xyzMsg, importance_confusedMsg, ?_⟩
  rw [importance_xyzMsg]
  norm_num

/-- C6, amended.  The emotion bonus is resolved through the fixed lookup
table with default 0.05 *only when an emotion was detected*; an unknown
label contributes the 0.05 default, an absent emotion contributes no bonus
at all, and the bonus enters the pre-clamp score additively. -/
theorem claim_C6 :
    ∀ (role content : String) (ts : ℤ) (e : String),
      emotionBonus none = 0 ∧
      (e ∉ ["sad", "angry", "anxious", "worried", "excited", "happy",
        "frustrated"] → emotionBonus (some e) = 0.05) ∧
      rawImportance (Message.mk role content ts (some e)) =
        rawImportance (Message.mk role content ts none) + emotionWeight e := by
  intro role content ts e
  refine ⟨rfl, ?_, ?_⟩
  · intro h
    simp only [List.mem_cons, List.not_mem_nil, or_false, not_or] at h
    obtain ⟨h1, h2, h3, h4, h5, h6, h7⟩ := h
    simp [emotionBonus, emotionWeight, h1, h2, h3, h4, h5, h6, h7]
  · simp only [rawImportance, emotionBonus]
    ring

/-- Witness for the amended C6 at the concrete unknown label "confused". -/
theorem claim_C6_witness :
    emotionBonus none = 0 ∧ emotionBonus (some "confused") = 0.05 ∧
    rawImportance confusedMsg = rawImportance xyzMsg + emotionWeight "confused" :=
  ⟨(claim_C6 "user" "xyz" 0 "confused").1,
   (claim_C6 "user" "xyz" 0 "confused").2.1 (by decide),
   (claim_C6 "user" "xyz" 0 "confused").2.2⟩

/-- Evaluation of "خیلی ناراحتم": one medium keyword ('ناراحت', +0.08), no
high keyword, no emotion, 12 characters, no question marker, no pronoun:
0.5 + 0.08 = 0.58. -/
theorem importance_sadMsg : importanceScore sadMsg = 0.58 := by
  have h1 : countMatches (pyLower sadMsg.content.toList) highKeywords = 0 := by
    decide
  have h2 : countMatches (pyLower sadMsg.content.toList) mediumKeywords = 1 := by
    decide
  have h3 : countMatches (pyLower sadMsg.content.toList) personalPronouns = 0 := by
    decide
  have h4 : (pyLower sadMsg.content.toList).length = 12 := by decide
  have h5 : questionBonus (pyLower sadMsg.content.toList) = 0 := by
    unfold questionBonus
    rw [if_neg]
    rw [Bool.not_eq_true]
    decide
  have h6 : sadMsg.emotion_detected = none := rfl
  simp only [importanceScore, rawImportance]
  rw [h1, h2, h3, h4, h5, h6]
  norm_num [emotionBonus, lengthBonus, min_def, max_def]

/-- C7, counterexample.  The score of "خیلی ناراحتم" is 0.58 (the term
'ناراحت' is in the *medium* lexicon, not the high one), which is below the
claimed 0.65 bound and below the 0.7 long-term threshold, so the message is
stored at SHORT_TERM only. -/
theorem counterexample_C7 :
    importanceScore sadMsg = 0.58 ∧ ¬ ((0.65 : ℚ) ≤ importanceScore sadMsg) ∧
    memoryTiers sadMsg = (true, false) := by
  have hdec : decide ((0.7 : ℚ) ≤ importanceScore sadMsg) = false := by
    rw [importance_sadMsg, decide_eq_false_iff_not]
    norm_num
  refine ⟨importance_sadMsg, ?_, ?_⟩
  · rw [importance_sadMsg]
    norm_num
  · unfold memoryTiers
    rw [hdec]

/-- C7, amended.  "خیلی ناراحتم" scores 0.58 (its lexicon hit is a
medium-importance term), hence it is stored at SHORT_TERM only; the tier
rule "long-term iff score ≥ 0.7" itself holds for every message. -/
theorem claim_C7 :
    importanceScore sadMsg = 0.58 ∧ memoryTiers sadMsg = (true, false) ∧
    (∀ m : Message, ((memoryTiers m).2 = true ↔ (0.7 : ℚ) ≤ importanceScore m)) := by
  have hdec : decide ((0.7 : ℚ) ≤ importanceScore sadMsg) = false := by
    rw [importance_sadMsg, decide_eq_false_iff_not]
    norm_num
  refine ⟨importance_sadMsg, ?_, ?_⟩
  · unfold memoryTiers
    rw [hdec]
  · intro m
    unfold memoryTiers
    simp only [decide_eq_true_eq]

/-- Updating by a string id is a no-op on a store whose documents all carry
driver-generated `ObjectId`s. -/
theorem updateMemoryAccessDb_oid {st : List MDoc}
    (h : ∀ d ∈ st, ∃ n, d.did = DbId.oid n) (mid : String) (now : ℤ) :
    updateMemoryAccessDb st mid now = st := by
  unfold updateMemoryAccessDb
  have hmap : ∀ d ∈ st,
      (if idMatchesStr d.did mid then
        { d with last_accessed := now, access_count := d.access_count + 1 }
      else d) = d := by
    intro d hd
    obtain ⟨n, hn⟩ := h d hd
    rw [hn]
    rfl
  induction st with
  | nil => rfl
  | cons d ds ih =>
    rw [List.map_cons, hmap d (by simp),
      ih (fun x hx => h x (by simp [hx])) (fun x hx => hmap x (by simp [hx]))]

theorem updateAllDb_oid {st : List MDoc}
    (h : ∀ d ∈ st, ∃ n, d.did = DbId.oid n) (now : ℤ) :
    ∀ ms : List Memory, updateAllDb st ms now = st := by
  intro ms
  induction ms with
  | nil => rfl
  | cons m rest ih =>
    unfold updateAllDb at ih ⊢
    rw [List.foldl_cons, updateMemoryAccessDb_oid h m.id now]
    exact ih

/-- C8.  Code bug: the combined context-retrieval passes `memory.id` — a
Python *string* (pydantic converts the `ObjectId` to `str`) — to
`update_memory_access`, whose filter `{"_id": memory_id}` therefore matches
no document (the stored `_id`s are `ObjectId`s; note the sibling call
`add_message_to_conversation` wraps with `ObjectId(...)`).  So the store is
left completely unchanged: no returned record ever has its `access_count`
incremented or `last_accessed` bumped, contrary to the claim. -/
theorem claim_C8 :
    ∀ (store : List MDoc) (user msg : String) (limit : ℕ) (now : ℤ),
      (∀ d ∈ store, ∃ n, d.did = DbId.oid n) →
      (getRelevantContextDb store user msg limit now).2 = store ∧
      (∀ mid, updateMemoryAccessDb store mid now = store) := by
  intro store user msg limit now h
  refine ⟨?_, fun mid => updateMemoryAccessDb_oid h mid now⟩
  simp only [getRelevantContextDb]
  rw [updateAllDb_oid h now, updateAllDb_oid h now]

theorem relevance_apple_pie :
    relevanceScore 0 (queryWords "apple") (memFromDoc exDoc) = 0.62 := by
  unfold relevanceScore
  rw [show ((queryWords "apple") ∩ memWords (memFromDoc exDoc)).card = 1 from
        by decide,
      show ((queryWords "apple") ∪ memWords (memFromDoc exDoc)).card = 2 from
        by decide]
  norm_num [memFromDoc, exDoc, timeRelevance, Int.zero_fdiv, min_def]

theorem rank_apple_pie :
    rankMemories 0 "apple" [memFromDoc exDoc] 5 = [memFromDoc exDoc] := by
  have hscored : scoredMemories 0 "apple" [memFromDoc exDoc] =
      [(memFromDoc exDoc, 0.62)] := by
    unfold scoredMemories
    rw [List.filterMap_cons,
      if_pos (by decide :
        0 < ((queryWords "apple") ∪ memWords (memFromDoc exDoc)).card),
      relevance_apple_pie, List.filterMap_nil]
  unfold rankMemories rankPool
  rw [hscored]
  simp only [List.insertionSort, List.orderedInsert, List.take]
  rw [List.filterMap_cons, if_pos (by norm_num : (0.2 : ℚ) < 0.62),
    List.filterMap_nil]

/-- Witness for C8: a store holding one driver-inserted long-term document;
the retrieval returns it as context (`Background:` item), yet the store after
the operation is identical — its `access_count` is still 0 — and even the
direct update call with the record's own string id changes nothing. -/
theorem claim_C8_witness :
    (getRelevantContextDb [exDoc] "u" "apple" 10 0).2 = [exDoc] ∧
    updateMemoryAccessDb [exDoc] (idToStr exDoc.did) 0 = [exDoc] ∧
    (getRelevantContextDb [exDoc] "u" "apple" 10 0).1 =
      ["Background: apple pie"] := by
  have h : ∀ d ∈ [exDoc], ∃ n, d.did = DbId.oid n := by
    intro d hd
    rw [List.mem_singleton] at hd
    subst hd
    exact ⟨1, rfl⟩
  refine ⟨(claim_C8 [exDoc] "u" "apple" 10 0 h).1,
    (claim_C8 [exDoc] "u" "apple" 10 0 h).2 (idToStr exDoc.did), ?_⟩
  have hshorts : getRelevantMemoriesDb [exDoc] "u" .short_term (10 / 2) = [] :=
    rfl
  have halls : getRelevantMemoriesDb [exDoc] "u" .long_term 50 =
      [memFromDoc exDoc] := rfl
  simp only [getRelevantContextDb]
  rw [hshorts]
  rw [show updateAllDb [exDoc] [] 0 = [exDoc] from rfl]
  rw [halls]
  rw [show ([memFromDoc exDoc] : List Memory).isEmpty = false from rfl]
  simp only [Bool.false_eq_true, if_false]
  rw [show (10 / 2 : ℕ) = 5 from rfl, rank_apple_pie]
  rfl

/-- C9.  Code bug: `_cleanup_cache` filters on `timedelta.seconds` — the
mod-86400 component — instead of the total age, so an entry that is
1 day and 10 minutes old (87000 s, far beyond one hour) survives the sweep,
contrary to the claim (and to the code's own comment "Remove entries older
than 1 hour"). -/
theorem claim_C9 :
    cleanupCache [("u", [staleEntry])] 87000 = [("u", [staleEntry])] ∧
    (3600 : ℤ) < 87000 - staleEntry.timestamp := by
  exact ⟨rfl, by decide⟩

/-- C10, counterexample.  A persistence failure (the long-term query raises)
after a successful short-term fetch: `get_relevant_context` returns the
short-term items, not the empty list — the inner `try/except` of
`_get_contextually_relevant_memories` swallows the failure. -/
theorem counterexample_C10 :
    (getRelevantContextOps opsLongQueryFail 0 "u" "q" 10 0).1 =
      ["Recent: hello"] ∧
    (getRelevantContextOps opsLongQueryFail 0 "u" "q" 10 0).1 ≠ [] := by
  exact ⟨rfl, by decide⟩

/-- C10, amended.  Failing persistence calls degrade safely instead of
propagating: a failing short-term *store* returns `False` with store and
cache untouched; a failing long-term store (after a successful short-term
store) returns `False` with exactly the short-term write retained and the
cache untouched; a failing short-term *query* or a failing access-update
makes context retrieval return `[]`; a failing long-term query is swallowed
inside the ranking step (which yields `[]` there), so the combined retrieval
returns just the short-term items rather than `[]`. -/
theorem claim_C10 :
    ∀ (σ : Type) (ops : DbOps σ) (st : σ) (cache : Cache) (user msg : String)
      (m : Message) (limit : ℕ) (now : ℤ),
      (ops.storeMemory st user (shortContent m) .short_term
          (importanceScore m) = .error () →
        storeConversationMemoryOps ops st cache user m = (false, st, cache)) ∧
      (∀ st1, ops.storeMemory st user (shortContent m) .short_term
          (importanceScore m) = .ok st1 →
        (0.7 : ℚ) ≤ importanceScore m →
        ops.storeMemory st1 user (longSummary m) .long_term
          (importanceScore m) = .error () →
        storeConversationMemoryOps ops st cache user m = (false, st1, cache)) ∧
      (ops.queryMemories st user .short_term (limit / 2) = .error () →
        getRelevantContextOps ops st user msg limit now = ([], st)) ∧
      (ops.queryMemories st user .long_term 50 = .error () →
        getCtxRelevantOps ops st user msg limit now = []) ∧
      (∀ shorts, ops.queryMemories st user .short_term (limit / 2) = .ok shorts →
        (updateAllOps ops shorts st).2 = false →
        (getRelevantContextOps ops st user msg limit now).1 = []) := by
  intro σ ops st cache user msg m limit now
  refine ⟨?_, ?_, ?_, ?_, ?_⟩
  · intro h
    simp only [storeConversationMemoryOps, h]
  · intro st1 h1 h2 h3
    simp only [storeConversationMemoryOps, h1, if_pos h2, h3]
  · intro h
    simp only [getRelevantContextOps, h]
  · intro h
    simp only [getCtxRelevantOps, h]
  · intro shorts hq hfail
    simp only [getRelevantContextOps, hq, hfail, Bool.false_eq_true, if_false]

/-- Evaluation: "خودکشی مرگ" holds two high keywords plus the pronoun
'خود': 0.5 + 2·0.15 + 0.05 = 0.85. -/
theorem importance_highMsg : importanceScore highMsg = 0.85 := by
  have h1 : countMatches (pyLower highMsg.content.toList) highKeywords = 2 := by
    decide
  have h2 : countMatches (pyLower highMsg.content.toList) mediumKeywords = 0 := by
    decide
  have h3 : countMatches (pyLower highMsg.content.toList) personalPronouns = 1 := by
    decide
  have h4 : (pyLower highMsg.content.toList).length = 10 := by decide
  have h5 : questionBonus (pyLower highMsg.content.toList) = 0 := by
    unfold questionBonus
    rw [if_neg]
    rw [Bool.not_eq_true]
    decide
  have h6 : highMsg.emotion_detected = none := rfl
  simp only [importanceScore, rawImportance]
  rw [h1, h2, h3, h4, h5, h6]
  norm_num [emotionBonus, lengthBonus, min_def, max_def]

/-- Witness for the amended C10, one concrete failing collaborator per
failure mode. -/
theorem claim_C10_witness :
    storeConversationMemoryOps opsAllFail 0 [] "u" highMsg = (false, 0, []) ∧
    storeConversationMemoryOps opsLongStoreFail 0 [] "u" highMsg =
      (false, 1, []) ∧
    getRelevantContextOps opsAllFail 0 "u" "q" 10 0 = ([], 0) ∧
    getCtxRelevantOps opsAllFail 0 "u" "q" 5 0 = [] ∧
    (getRelevantContextOps opsUpdateFail 0 "u" "q" 10 0).1 = [] := by
  refine ⟨(claim_C10 ℕ opsAllFail 0 [] "u" "q" highMsg 10 0).1 rfl,
    (claim_C10 ℕ opsLongStoreFail 0 [] "u" "q" highMsg 10 0).2.1 1 rfl
      (by rw [importance_highMsg]; norm_num) rfl,
    (claim_C10 ℕ opsAllFail 0 [] "u" "q" highMsg 10 0).2.2.1 rfl,
    (claim_C10 ℕ opsAllFail 0 [] "u" "q" highMsg 5 0).2.2.2.1 rfl,
    (claim_C10 ℕ opsUpdateFail 0 [] "u" "q" highMsg 10 0).2.2.2.2
      [exShortMemory] rfl rfl⟩

end TherapyBot
